import Mathlib

/-!
Verification of the DNP3 codec in `src/protocols/dnp3.py` (icssploit).

Bytes are modelled as `Nat` list elements (Python `bytes` elements are
0–255; hypotheses state the bound where it matters).  Functions that
Python implements with `while` loops over an index are modelled with a
fuel parameter equal to the input length; every step consumes at least
16 elements, so the fuel never runs out (lemmas below make the
recursion equations available without fuel).
-/

set_option maxRecDepth 40000

namespace DNP3

/-- Errors raised or returned by the codec.  Each constructor corresponds
to one `raise`/error-dict site in `dnp3.py`. -/
inductive ParseError where
  /-- `ValueError("CRC mismatch ...")` in `remove_crc_from_frame`
  (carries the stored and the recomputed checksum). -/
  | crcMismatch (expected calculated : Nat)
  /-- `ValueError("Insufficient data for object header")` in
  `DNP3ObjectHeader.unpack`. -/
  | insufficientObjectHeader
  /-- `ValueError("Insufficient data for range field")` in
  `DNP3ObjectHeader.unpack`. -/
  | insufficientRangeField
  /-- `{"error": "Frame too short for data link header"}` in `parse_response`. -/
  | frameTooShortDataLink
  /-- `{"error": "Frame too short for transport header"}` in `parse_response`. -/
  | frameTooShortTransport
  /-- `{"error": "Frame too short for application header"}` in `parse_response`. -/
  | frameTooShortApplication
deriving DecidableEq

/-- One round of the inner bit loop of `DNP3Utils.calculate_crc`:
`if crc & 1: crc = (crc >> 1) ^ 0xA6BC else: crc >>= 1`. -/
def crcRound (crc : Nat) : Nat :=
  if crc &&& 1 = 1 then (crc >>> 1) ^^^ 0xA6BC else crc >>> 1

/-- The eight iterations of the inner loop (`for _ in range(8)`). -/
def crc8 (crc : Nat) : Nat :=
  crcRound (crcRound (crcRound (crcRound (crcRound (crcRound (crcRound (crcRound crc)))))))

/-- The byte loop of `DNP3Utils.calculate_crc` with explicit accumulator:
`for byte in data: crc ^= byte; <8 rounds>`. -/
def crcAcc : Nat → List Nat → Nat
  | crc, [] => crc
  | crc, byte :: rest => crcAcc (crc8 (crc ^^^ byte)) rest

/-- `DNP3Utils.calculate_crc`: accumulator starts at 0, the final value is
masked with `0xFFFF`. -/
def calculate_crc (data : List Nat) : Nat :=
  crcAcc 0 data &&& 0xFFFF

/-- `struct.pack('<H', crc)`: two little-endian bytes. -/
def pack16le (c : Nat) : List Nat :=
  [c % 256, c / 256]

/-- `struct.unpack('<H', b)`: recombine two little-endian bytes. -/
def unpack16le (b : List Nat) : Nat :=
  b.getD 0 0 + 256 * b.getD 1 0

/-- Fuel-indexed body of `DNP3Utils.add_crc_to_frame`
(`for i in range(0, len(data), 16)`), consuming 16 data bytes per step. -/
def addCrcGo : Nat → List Nat → List Nat
  | _, [] => []
  | 0, _ :: _ => []
  | fuel + 1, x :: xs =>
      (x :: xs).take 16 ++ pack16le (calculate_crc ((x :: xs).take 16))
        ++ addCrcGo fuel ((x :: xs).drop 16)

/-- `DNP3Utils.add_crc_to_frame`: append a 2-byte little-endian CRC after
every 16-byte block (final block may be shorter). -/
def add_crc_to_frame (data : List Nat) : List Nat :=
  addCrcGo data.length data

/-- Fuel-indexed body of the `while i < len(data)` loop of
`DNP3Utils.remove_crc_from_frame`, consuming 18 frame bytes per full block. -/
def removeCrcGo : Nat → List Nat → Except ParseError (List Nat)
  | 0, _ => .ok []
  | fuel + 1, data =>
      if 18 ≤ data.length then
        let block := data.take 16
        let expected := unpack16le ((data.drop 16).take 2)
        let calculated := calculate_crc block
        if calculated = expected then
          match removeCrcGo fuel (data.drop 18) with
          | .ok rest => .ok (block ++ rest)
          | .error e => .error e
        else .error (.crcMismatch expected calculated)
      else if 2 ≤ data.length then
        let block := data.take (data.length - 2)
        let expected := unpack16le (data.drop (data.length - 2))
        let calculated := calculate_crc block
        if calculated = expected then .ok block
        else .error (.crcMismatch expected calculated)
      else .ok []

/-- `DNP3Utils.remove_crc_from_frame`: verify and strip the CRC after each
18-byte block (16 data + 2 CRC); a trailing part of at least 2 bytes is
verified as a short final block; a trailing part of fewer than 2 bytes is
ignored by the loop. -/
def remove_crc_from_frame (data : List Nat) : Except ParseError (List Nat) :=
  removeCrcGo data.length data

/-- A single-bit corruption of a byte buffer: bit `k % 8` of byte `k / 8`
is inverted (XOR with the corresponding power of two). -/
def flipBit (data : List Nat) (k : Nat) : List Nat :=
  data.set (k / 8) (data.getD (k / 8) 0 ^^^ (1 <<< (k % 8)))

/-- `DNP3DataLinkHeader`: start bytes, length, control, 16-bit destination
and source (dataclass defaults `start1=0x05`, `start2=0x64`). -/
structure DNP3DataLinkHeader where
  start1 : Nat := 0x05
  start2 : Nat := 0x64
  length : Nat := 0
  control : Nat := 0
  destination : Nat := 0
  source : Nat := 0
deriving DecidableEq

/-- `DNP3DataLinkHeader.pack`: `struct.pack('<BBBBHH', ...)` — four single
bytes then two little-endian 16-bit fields. -/
def DNP3DataLinkHeader.pack (h : DNP3DataLinkHeader) : List Nat :=
  [h.start1, h.start2, h.length, h.control,
   h.destination % 256, h.destination / 256, h.source % 256, h.source / 256]

/-- `DNP3DataLinkHeader.unpack`: `struct.unpack('<BBBBHH', data[:8])`.
Callers check `len(data) >= 8` first (`struct.error` otherwise), so the
embedding reads the first eight bytes directly. -/
def DNP3DataLinkHeader.unpack (data : List Nat) : DNP3DataLinkHeader :=
  { start1 := data.getD 0 0
    start2 := data.getD 1 0
    length := data.getD 2 0
    control := data.getD 3 0
    destination := data.getD 4 0 + 256 * data.getD 5 0
    source := data.getD 6 0 + 256 * data.getD 7 0 }

/-- `DNP3TransportHeader`: FIN, FIR and a 6-bit sequence number. -/
structure DNP3TransportHeader where
  fin : Bool := true
  fir : Bool := true
  sequence : Nat := 0
deriving DecidableEq

/-- `DNP3TransportHeader.pack`:
`control = (fin << 7) | (fir << 6) | (sequence & 0x3F)`, one byte. -/
def DNP3TransportHeader.pack (h : DNP3TransportHeader) : List Nat :=
  [((if h.fin then 1 else 0) <<< 7) ||| ((if h.fir then 1 else 0) <<< 6)
    ||| (h.sequence &&& 0x3F)]

/-- `DNP3TransportHeader.unpack`: reads one byte; `fin = bool(c & 0x80)`,
`fir = bool(c & 0x40)`, `sequence = c & 0x3F`. -/
def DNP3TransportHeader.unpack (data : List Nat) : DNP3TransportHeader :=
  { fin := data.getD 0 0 &&& 0x80 ≠ 0
    fir := data.getD 0 0 &&& 0x40 ≠ 0
    sequence := data.getD 0 0 &&& 0x3F }

/-- `DNP3ApplicationHeader`: application control byte and function code. -/
structure DNP3ApplicationHeader where
  control : Nat := 0
  function_code : Nat := 0
deriving DecidableEq

/-- `DNP3ApplicationHeader.pack`: `struct.pack('<BB', ...)`. -/
def DNP3ApplicationHeader.pack (h : DNP3ApplicationHeader) : List Nat :=
  [h.control, h.function_code]

/-- `DNP3ApplicationHeader.unpack`: `struct.unpack('<BB', data[:2])`. -/
def DNP3ApplicationHeader.unpack (data : List Nat) : DNP3ApplicationHeader :=
  { control := data.getD 0 0, function_code := data.getD 1 0 }

/-- `DNP3ObjectHeader`: group, variation, qualifier and the variable-length
range field. -/
structure DNP3ObjectHeader where
  group : Nat := 0
  variation : Nat := 0
  qualifier : Nat := 0
  range_field : List Nat := []
deriving DecidableEq

/-- `DNP3ObjectHeader._get_range_field_length`: range-field byte count
selected by `qualifier & 0x70`. -/
def DNP3ObjectHeader.rangeFieldLength (qualifier : Nat) : Nat :=
  let qualifier_type := qualifier &&& 0x70
  if qualifier_type = 0x00 then 2
  else if qualifier_type = 0x10 then 4
  else if qualifier_type = 0x20 then 8
  else if qualifier_type = 0x30 then 1
  else if qualifier_type = 0x40 then 2
  else if qualifier_type = 0x50 then 4
  else if qualifier_type = 0x60 then 0
  else 0

/-- `DNP3ObjectHeader.pack`: `struct.pack('<BBB', ...) + range_field`. -/
def DNP3ObjectHeader.pack (h : DNP3ObjectHeader) : List Nat :=
  h.group :: h.variation :: h.qualifier :: h.range_field

/-- `DNP3ObjectHeader.unpack`: returns `(header, bytes_consumed)`; raises on
fewer than 3 bytes, or fewer than `3 + range_length` bytes. -/
def DNP3ObjectHeader.unpack (data : List Nat) :
    Except ParseError (DNP3ObjectHeader × Nat) :=
  if data.length < 3 then .error .insufficientObjectHeader
  else
    let group := data.getD 0 0
    let variation := data.getD 1 0
    let qualifier := data.getD 2 0
    let range_length := rangeFieldLength qualifier
    if data.length < 3 + range_length then .error .insufficientRangeField
    else .ok (⟨group, variation, qualifier, (data.drop 3).take range_length⟩,
              3 + range_length)

/-- The per-object dict `{"group": ..., "variation": ..., "qualifier": ...}`
appended by `parse_response` (the range field is not recorded). -/
structure ObjEntry where
  group : Nat
  variation : Nat
  qualifier : Nat
deriving DecidableEq

/-- The `"data_link"` sub-dict of `parse_response`'s result. -/
structure DataLinkInfo where
  source : Nat
  destination : Nat
  control : Nat
deriving DecidableEq

/-- The `"transport"` sub-dict of `parse_response`'s result. -/
structure TransportInfo where
  fin : Bool
  fir : Bool
  sequence : Nat
deriving DecidableEq

/-- The `"application"` sub-dict of `parse_response`'s result: it carries
only the raw control byte and the function code (no `"sequence"` key). -/
structure ApplicationInfo where
  control : Nat
  function_code : Nat
deriving DecidableEq

/-- The success dict of `parse_response`. -/
structure ParsedResponse where
  data_link : DataLinkInfo
  transport : TransportInfo
  application : ApplicationInfo
  objects : List ObjEntry
deriving DecidableEq

/-- The object loop of `parse_response`
(`while offset < len(clean_data): try: ...; break / except: break`):
both branches `break`, so at most one object header is recorded —
a successfully unpacked one is appended, a failed unpack is swallowed. -/
def parseObjects (buf : List Nat) : List ObjEntry :=
  match buf with
  | [] => []
  | _ :: _ =>
      match DNP3ObjectHeader.unpack buf with
      | .ok (h, _) => [⟨h.group, h.variation, h.qualifier⟩]
      | .error _ => []

/-- The byte encoding of a sequence of object headers (each one packed,
concatenated), as they appear in application data after the headers. -/
def objsBytes : List DNP3ObjectHeader → List Nat
  | [] => []
  | h :: t => h.pack ++ objsBytes t

/-- `DNP3Utils.parse_response`: strip CRCs, check the three minimum
lengths, unpack the three layer headers at offsets 0, 8, 9, then run the
object loop from offset 11.  Errors (raised or returned as `"error"`
dicts) are the `Except.error` case. -/
def parse_response (data : List Nat) : Except ParseError ParsedResponse :=
  match remove_crc_from_frame data with
  | .error e => .error e
  | .ok clean_data =>
      if clean_data.length < 8 then .error .frameTooShortDataLink
      else if clean_data.length < 9 then .error .frameTooShortTransport
      else if clean_data.length < 11 then .error .frameTooShortApplication
      else
        let dl := DNP3DataLinkHeader.unpack clean_data
        let th := DNP3TransportHeader.unpack (clean_data.drop 8)
        let ah := DNP3ApplicationHeader.unpack (clean_data.drop 9)
        .ok { data_link := ⟨dl.source, dl.destination, dl.control⟩
              transport := ⟨th.fin, th.fir, th.sequence⟩
              application := ⟨ah.control, ah.function_code⟩
              objects := parseObjects (clean_data.drop 11) }

/-- `DNP3Utils.create_read_request(source, destination, objects)`: function
code READ (0x01) with application control 0xC0, one object header per
`(group, variation, start, stop)` tuple with qualifier 0x00 and a 2-byte
range field, transport header `fin=fir=True, sequence=0`, data-link header
with control 0x44 and the assembled length, then CRCs.  The signature has
no sequence parameters. -/
def create_read_request (source destination : Nat)
    (objects : List (Nat × Nat × Nat × Nat)) : List Nat :=
  let app_data := DNP3ApplicationHeader.pack ⟨0xC0, 0x01⟩ ++
    (objects.map fun (g, v, start_idx, stop_idx) =>
      DNP3ObjectHeader.pack ⟨g, v, 0x00, [start_idx, stop_idx]⟩).foldr (· ++ ·) []
  let transport_data := DNP3TransportHeader.pack ⟨true, true, 0⟩ ++ app_data
  let dl_header : DNP3DataLinkHeader :=
    { length := transport_data.length, control := 0x44,
      destination := destination, source := source }
  add_crc_to_frame (dl_header.pack ++ transport_data)

/-- `DNP3Point` (index, value, quality, optional timestamp). -/
structure DNP3Point where
  index : Nat
  value : Nat
  quality : Nat := 0
  timestamp : Option Nat := none
deriving DecidableEq

/-- The keys of the dict `parse_response` returns on success; the client2s
`parsed.get("valid", False)` looks up `"valid"` here and falls back to the
default `False`. -/
def parseResponseSuccessKeys : List String :=
  ["data_link", "transport", "application", "objects"]

/-- The keys of the `"application"` sub-dict; the client2s
`parsed.get("application", {}).get("sequence", -1)` looks up `"sequence"`
here and falls back to the default `-1`. -/
def applicationKeys : List String :=
  ["control", "function_code"]

/-- The guard `"error" not in parsed and parsed.get("valid", False)` of
`DNP3Client._read_points`: an error result fails the first conjunct, and a
success dict carries no `"valid"` key, so the lookup yields `False`. -/
def readPointsGuard (parsed : Except ParseError ParsedResponse) : Bool :=
  match parsed with
  | .error _ => false
  | .ok _ => decide ("valid" ∈ parseResponseSuccessKeys)

/-- The value of `parsed.get("application", {}).get("sequence", -1)` in
`DNP3Client._read_points`: the application sub-dict holds only
`"control"` and `"function_code"`, so the lookup yields the default. -/
def readPointsResponseSeq (r : ParsedResponse) : Int :=
  if "sequence" ∈ applicationKeys then (r.application.control : Int) else -1

/-- The response handling of `DNP3Client._read_points` after
`parse_response`: inside the guard it builds `count` placeholder points
(value 0, quality 0x01) starting at `start_index` — a sequence mismatch
only logs a warning there — and outside the guard it returns `None`. -/
def readPointsOutcome (parsed : Except ParseError ParsedResponse)
    (start_index count : Nat) : Option (List DNP3Point) :=
  if readPointsGuard parsed then
    some ((List.range count).map fun i => ⟨start_index + i, 0, 0x01, none⟩)
  else none

instance exceptDecEq {ε α : Type} [DecidableEq ε] [DecidableEq α] :
    DecidableEq (Except ε α) := fun x y =>
  match x, y with
  | .ok a, .ok b =>
      if h : a = b then isTrue (by rw [h]) else isFalse (fun hc => h (Except.ok.inj hc))
  | .error a, .error b =>
      if h : a = b then isTrue (by rw [h]) else isFalse (fun hc => h (Except.error.inj hc))
  | .ok _, .error _ => isFalse (fun hc => Except.noConfusion hc)
  | .error _, .ok _ => isFalse (fun hc => Except.noConfusion hc)

/-! ### Bitwise helper lemmas -/

lemma xor_shiftRight_distrib (a b i : Nat) :
    (a ^^^ b) >>> i = a >>> i ^^^ b >>> i := by
  apply Nat.eq_of_testBit_eq
  intro j
  simp [Nat.testBit_shiftRight, Nat.testBit_xor]

lemma xor_and_distrib (a b m : Nat) :
    (a ^^^ b) &&& m = (a &&& m) ^^^ (b &&& m) := by
  apply Nat.eq_of_testBit_eq
  intro j
  simp [Nat.testBit_and, Nat.testBit_xor, Bool.and_xor_distrib_right]

lemma and_one_le (a : Nat) : a &&& 1 ≤ 1 := Nat.and_le_right

lemma xor_ne_self {a v : Nat} (hv : v ≠ 0) : a ^^^ v ≠ a := by
  intro h
  apply hv
  have h2 : v = a ^^^ (a ^^^ v) := by
    rw [← Nat.xor_assoc, Nat.xor_self, Nat.zero_xor]
  rw [h, Nat.xor_self] at h2
  exact h2

lemma xor_left_rot (a b c : Nat) : a ^^^ (b ^^^ c) = b ^^^ (a ^^^ c) := by
  rw [← Nat.xor_assoc, Nat.xor_comm a b, Nat.xor_assoc]

/-! ### Linearity of the CRC over bytewise XOR -/

lemma crcRound_xor (a b : Nat) :
    crcRound (a ^^^ b) = crcRound a ^^^ crcRound b := by
  unfold crcRound
  have hab : (a ^^^ b) &&& 1 = (a &&& 1) ^^^ (b &&& 1) := xor_and_distrib a b 1
  have ha := and_one_le a
  have hb := and_one_le b
  interval_cases h1 : a &&& 1 <;> interval_cases h2 : b &&& 1 <;>
    simp_all [xor_shiftRight_distrib] <;>
    simp [Nat.xor_assoc, Nat.xor_comm, xor_left_rot, Nat.xor_self, Nat.xor_zero,
      Nat.zero_xor]

lemma crc8_xor (a b : Nat) : crc8 (a ^^^ b) = crc8 a ^^^ crc8 b := by
  simp only [crc8, crcRound_xor]

lemma crcAcc_xor : ∀ (xs ys : List Nat) (a b : Nat), xs.length = ys.length →
    crcAcc (a ^^^ b) (List.zipWith (· ^^^ ·) xs ys) = crcAcc a xs ^^^ crcAcc b ys := by
  intro xs
  induction xs with
  | nil =>
      intro ys a b h
      cases ys with
      | nil => simp [crcAcc]
      | cons y ys => simp at h
  | cons x xs ih =>
      intro ys a b h
      cases ys with
      | nil => simp at h
      | cons y ys =>
          simp only [List.zipWith_cons_cons, crcAcc]
          have hsw : a ^^^ b ^^^ (x ^^^ y) = (a ^^^ x) ^^^ (b ^^^ y) := by
            simp [Nat.xor_assoc, Nat.xor_comm, xor_left_rot]
          rw [hsw, crc8_xor]
          exact ih ys _ _ (by simpa using h)

lemma calculate_crc_xor (xs ys : List Nat) (h : xs.length = ys.length) :
    calculate_crc (List.zipWith (· ^^^ ·) xs ys) =
      calculate_crc xs ^^^ calculate_crc ys := by
  unfold calculate_crc
  have h0 : (0 : Nat) = 0 ^^^ 0 := rfl
  rw [← xor_and_distrib]
  rw [show crcAcc 0 (List.zipWith (· ^^^ ·) xs ys) = crcAcc (0 ^^^ 0) (List.zipWith (· ^^^ ·) xs ys) from rfl]
  rw [crcAcc_xor xs ys 0 0 h]

lemma calculate_crc_lt (data : List Nat) : calculate_crc data < 65536 := by
  unfold calculate_crc
  have : crcAcc 0 data &&& 0xFFFF ≤ 0xFFFF := Nat.and_le_right
  omega

/-! ### Single-byte error vectors change the CRC -/

lemma zipWith_xor_zero : ∀ (l : List Nat), List.zipWith (· ^^^ ·) l (List.replicate l.length 0) = l := by
  intro l
  induction l with
  | nil => rfl
  | cons x xs ih => simp [List.replicate_succ, ih]

lemma set_eq_zipWith_xor : ∀ (l : List Nat) (p v : Nat), p < l.length →
    l.set p (l.getD p 0 ^^^ v) =
      List.zipWith (· ^^^ ·) l (List.replicate p 0 ++ v :: List.replicate (l.length - p - 1) 0) := by
  intro l
  induction l with
  | nil => intro p v h; simp at h
  | cons x xs ih =>
      intro p v h
      cases p with
      | zero =>
          have hlen0 : (x :: xs).length - 0 - 1 = xs.length := by simp
          rw [hlen0]
          simp only [List.getD_cons_zero, List.replicate_zero, List.nil_append,
            List.zipWith_cons_cons, List.set_cons_zero]
          rw [zipWith_xor_zero]
      | succ p =>
          have hp : p < xs.length := by simpa using h
          have hlen2 : (x :: xs).length - (p + 1) - 1 = xs.length - p - 1 := by
            simp only [List.length_cons]; omega
          rw [hlen2]
          simp only [List.getD_cons_succ, List.set_cons_succ, List.replicate_succ,
            List.cons_append, List.zipWith_cons_cons, Nat.xor_zero]
          exact congrArg (x :: ·) (ih p v hp)

lemma crcAcc_replicate_zero : ∀ (p : Nat) (rest : List Nat),
    crcAcc 0 (List.replicate p 0 ++ rest) = crcAcc 0 rest := by
  intro p
  induction p with
  | zero => intro rest; rfl
  | succ p ih =>
      intro rest
      have h0 : crc8 (0 ^^^ 0) = 0 := by decide
      simp only [List.replicate_succ, List.cons_append, crcAcc, h0]
      exact ih rest

lemma crc_unit_ne_zero : ∀ j < 8, ∀ s < 16,
    calculate_crc ((1 <<< j) :: List.replicate s 0) ≠ 0 := by decide

/-- Flipping a single bit of any block of at most 16 bytes changes its CRC. -/
lemma flip_changes_crc (blk : List Nat) (p j : Nat) (hp : p < blk.length)
    (hlen : blk.length ≤ 16) (hj : j < 8) :
    calculate_crc (blk.set p (blk.getD p 0 ^^^ (1 <<< j))) ≠ calculate_crc blk := by
  rw [set_eq_zipWith_xor blk p _ hp]
  have hulen : (List.replicate p 0 ++ (1 <<< j) :: List.replicate (blk.length - p - 1) 0).length
      = blk.length := by
    simp [List.length_replicate]
    omega
  rw [calculate_crc_xor blk _ hulen.symm]
  have hunit : calculate_crc (List.replicate p 0 ++ (1 <<< j) :: List.replicate (blk.length - p - 1) 0)
      = calculate_crc ((1 <<< j) :: List.replicate (blk.length - p - 1) 0) := by
    unfold calculate_crc
    rw [crcAcc_replicate_zero]
  rw [hunit]
  exact xor_ne_self (crc_unit_ne_zero j hj (blk.length - p - 1) (by omega))

/-! ### Recursion equations for the fuel-indexed loops -/

lemma addCrcGo_fuel : ∀ (f₁ f₂ : Nat) (d : List Nat),
    d.length ≤ f₁ → d.length ≤ f₂ → addCrcGo f₁ d = addCrcGo f₂ d := by
  intro f₁
  induction f₁ with
  | zero =>
      intro f₂ d h1 _
      have : d = [] := List.length_eq_zero.mp (by omega)
      subst this
      cases f₂ <;> rfl
  | succ f ih =>
      intro f₂ d h1 h2
      cases d with
      | nil => cases f₂ <;> rfl
      | cons x xs =>
          have hlen : (x :: xs).length = xs.length + 1 := rfl
          obtain ⟨g, rfl⟩ : ∃ g, f₂ = g + 1 := ⟨f₂ - 1, by omega⟩
          simp only [addCrcGo]
          have hd : ((x :: xs).drop 16).length ≤ f := by
            simp only [List.length_drop, hlen] at *
            omega
          have hd2 : ((x :: xs).drop 16).length ≤ g := by
            simp only [List.length_drop, hlen] at *
            omega
          rw [ih g _ hd hd2]

/-- Recursion equation of `add_crc_to_frame` without fuel. -/
lemma add_crc_eq (d : List Nat) : add_crc_to_frame d =
    if d = [] then []
    else d.take 16 ++ pack16le (calculate_crc (d.take 16))
          ++ add_crc_to_frame (d.drop 16) := by
  cases d with
  | nil => rfl
  | cons x xs =>
      simp only [List.cons_ne_nil, if_neg, reduceIte]
      show addCrcGo (xs.length + 1) (x :: xs) = _
      simp only [addCrcGo]
      rw [addCrcGo_fuel xs.length ((x :: xs).drop 16).length _ _ le_rfl]
      · rfl
      · simp only [List.length_drop, List.length_cons]
        omega

lemma removeCrcGo_fuel : ∀ (f₁ f₂ : Nat) (d : List Nat),
    d.length ≤ f₁ → d.length ≤ f₂ → removeCrcGo f₁ d = removeCrcGo f₂ d := by
  intro f₁
  induction f₁ with
  | zero =>
      intro f₂ d h1 _
      have : d = [] := List.length_eq_zero.mp (by omega)
      subst this
      cases f₂ with
      | zero => rfl
      | succ g => simp [removeCrcGo]
  | succ f ih =>
      intro f₂ d h1 h2
      cases Nat.eq_zero_or_pos d.length with
      | inl hz =>
          have : d = [] := List.length_eq_zero.mp hz
          subst this
          cases f₂ with
          | zero => rfl
          | succ g => simp [removeCrcGo]
      | inr hpos =>
          obtain ⟨g, rfl⟩ : ∃ g, f₂ = g + 1 := ⟨f₂ - 1, by omega⟩
          simp only [removeCrcGo]
          have hd : (d.drop 18).length ≤ f := by
            simp only [List.length_drop]
            omega
          have hd2 : (d.drop 18).length ≤ g := by
            simp only [List.length_drop]
            omega
          rw [ih g _ hd hd2]

/-- Recursion equation of `remove_crc_from_frame` without fuel. -/
lemma remove_crc_eq (d : List Nat) : remove_crc_from_frame d =
    if 18 ≤ d.length then
      (if calculate_crc (d.take 16) = unpack16le ((d.drop 16).take 2) then
        match remove_crc_from_frame (d.drop 18) with
        | .ok rest => .ok (d.take 16 ++ rest)
        | .error e => .error e
      else .error (.crcMismatch (unpack16le ((d.drop 16).take 2))
                    (calculate_crc (d.take 16))))
    else if 2 ≤ d.length then
      (if calculate_crc (d.take (d.length - 2)) = unpack16le (d.drop (d.length - 2)) then
        .ok (d.take (d.length - 2))
      else .error (.crcMismatch (unpack16le (d.drop (d.length - 2)))
                    (calculate_crc (d.take (d.length - 2)))))
    else .ok [] := by
  cases d with
  | nil => rfl
  | cons x xs =>
      show removeCrcGo (xs.length + 1) (x :: xs) = _
      simp only [removeCrcGo]
      rw [removeCrcGo_fuel xs.length ((x :: xs).drop 18).length _ _ le_rfl]
      · rfl
      · simp only [List.length_drop, List.length_cons]
        omega

/-! ### CRC round-trip -/

lemma unpack_pack16le (c : Nat) (hc : c < 65536) : unpack16le (pack16le c) = c := by
  simp only [unpack16le, pack16le, List.getD_cons_zero, List.getD_cons_succ]
  omega

lemma pack16le_length (c : Nat) : (pack16le c).length = 2 := rfl

/-- `remove_crc_from_frame` inverts `add_crc_to_frame` on every payload. -/
lemma remove_add_aux : ∀ (n : Nat) (b : List Nat), b.length ≤ n →
    remove_crc_from_frame (add_crc_to_frame b) = .ok b := by
  intro n
  induction n with
  | zero =>
      intro b hb
      have : b = [] := List.length_eq_zero.mp (by omega)
      subst this
      rfl
  | succ n ih =>
      intro b hb
      rcases eq_or_ne b [] with rfl | hne
      · rfl
      rw [add_crc_eq, if_neg hne]
      by_cases h16 : 16 ≤ b.length
      · -- full 16-byte block followed by CRC and the rest of the frame
        have ht16 : (b.take 16).length = 16 := List.length_take_of_le h16
        have hlen : (b.take 16 ++ pack16le (calculate_crc (b.take 16))
            ++ add_crc_to_frame (b.drop 16)).length ≥ 18 := by
          simp [List.length_append, ht16, pack16le_length]
          omega
        rw [remove_crc_eq, if_pos (by omega)]
        rw [List.append_assoc]
        rw [List.take_left' ht16, List.drop_left' ht16]
        rw [List.take_left' (pack16le_length _)]
        rw [unpack_pack16le _ (calculate_crc_lt _), if_pos rfl]
        have hdrop18 : (b.take 16 ++ (pack16le (calculate_crc (b.take 16))
            ++ add_crc_to_frame (b.drop 16))).drop 18
            = add_crc_to_frame (b.drop 16) := by
          rw [← List.append_assoc]
          apply List.drop_left'
          simp [List.length_append, ht16, pack16le_length]
        rw [hdrop18]
        have hrec : remove_crc_from_frame (add_crc_to_frame (b.drop 16)) = .ok (b.drop 16) := by
          apply ih
          simp only [List.length_drop]
          omega
        rw [hrec]
        show Except.ok (b.take 16 ++ b.drop 16) = Except.ok b
        rw [List.take_append_drop]
      · -- short final block: the whole payload plus its CRC
        have hbl : 1 ≤ b.length := by
          cases b with
          | nil => exact absurd rfl hne
          | cons y ys => simp
        have htake : b.take 16 = b := List.take_of_length_le (by omega)
        have hdrop : b.drop 16 = [] := List.drop_eq_nil_of_le (by omega)
        rw [htake, hdrop]
        have hadd : add_crc_to_frame [] = [] := rfl
        rw [hadd, List.append_nil]
        have hlen2 : (b ++ pack16le (calculate_crc b)).length = b.length + 2 := by
          simp [List.length_append, pack16le_length]
        rw [remove_crc_eq, if_neg (by omega), if_pos (by omega)]
        rw [hlen2]
        have hminus : b.length + 2 - 2 = b.length := by omega
        rw [hminus]
        rw [List.take_left' rfl, List.drop_left' rfl]
        rw [unpack_pack16le _ (calculate_crc_lt _), if_pos rfl]

lemma remove_add (b : List Nat) :
    remove_crc_from_frame (add_crc_to_frame b) = .ok b :=
  remove_add_aux b.length b le_rfl

/-! ### Corruption detection -/

lemma one_shiftLeft_ne_zero (j : Nat) : (1 : Nat) <<< j ≠ 0 := by
  rw [Nat.shiftLeft_eq]
  positivity

/-- Flipping a bit of either stored CRC byte changes the decoded CRC value. -/
lemma unpack_flip_ne (c : Nat) (i : Nat) (hi : i < 2) (v : Nat) (hv : v ≠ 0) :
    unpack16le ((pack16le c).set i ((pack16le c).getD i 0 ^^^ v)) ≠ c := by
  interval_cases i
  · simp only [pack16le, List.getD_cons_zero, List.set_cons_zero, unpack16le,
      List.getD_cons_succ]
    intro h
    exact xor_ne_self hv (show c % 256 ^^^ v = c % 256 by omega)
  · simp only [pack16le, List.getD_cons_succ, List.getD_cons_zero,
      List.set_cons_succ, List.set_cons_zero, unpack16le]
    intro h
    exact xor_ne_self hv (show c / 256 ^^^ v = c / 256 by omega)

/-- Core of corruption detection: flipping any single bit anywhere in a
CRC-protected frame produced by `add_crc_to_frame` makes
`remove_crc_from_frame` fail with a CRC mismatch. -/
lemma remove_flip_aux : ∀ (n : Nat) (b : List Nat), b.length ≤ n →
    ∀ p j, p < (add_crc_to_frame b).length → j < 8 →
    ∃ e a, remove_crc_from_frame
        ((add_crc_to_frame b).set p ((add_crc_to_frame b).getD p 0 ^^^ (1 <<< j)))
      = .error (.crcMismatch e a) := by
  intro n
  induction n with
  | zero =>
      intro b hb p j hp hj
      have : b = [] := List.length_eq_zero.mp (by omega)
      subst this
      simp [add_crc_to_frame, addCrcGo] at hp
  | succ n ih =>
      intro b hb p j hp hj
      rcases eq_or_ne b [] with rfl | hne
      · simp [add_crc_to_frame, addCrcGo] at hp
      have hv : (1 : Nat) <<< j ≠ 0 := one_shiftLeft_ne_zero j
      by_cases h16 : 16 ≤ b.length
      · -- frame begins with a full 18-byte block
        have ht16 : (b.take 16).length = 16 := List.length_take_of_le h16
        set t := b.take 16 with ht_def
        set c := calculate_crc t with hc_def
        set k := pack16le c with hk_def
        set G := add_crc_to_frame (b.drop 16) with hG_def
        have hF : add_crc_to_frame b = t ++ k ++ G := by
          rw [add_crc_eq, if_neg hne]
        have htk : (t ++ k).length = 18 := by
          simp [List.length_append, ht16, hk_def, pack16le_length]
        have hFlen : (t ++ k ++ G).length = 18 + G.length := by
          simp [List.length_append, ht16, hk_def, pack16le_length]
          omega
        rw [hF] at hp ⊢
        by_cases hp16 : p < 16
        · -- bit flip inside the 16 data bytes of the first block
          have hgd : (t ++ k ++ G).getD p 0 = t.getD p 0 := by
            rw [List.getD_append _ _ _ p (by omega), List.getD_append _ _ _ p (by omega)]
          have hset : (t ++ k ++ G).set p (t.getD p 0 ^^^ 1 <<< j)
              = (t.set p (t.getD p 0 ^^^ 1 <<< j) ++ k) ++ G := by
            rw [List.set_append, if_pos (by omega), List.set_append, if_pos (by omega)]
          rw [hgd, hset]
          set t2 := t.set p (t.getD p 0 ^^^ 1 <<< j) with ht2_def
          have ht2len : t2.length = 16 := by
            rw [ht2_def, List.length_set, ht16]
          have hlen' : ((t2 ++ k) ++ G).length = 18 + G.length := by
            simp [List.length_append, ht2len, hk_def, pack16le_length]
            omega
          rw [remove_crc_eq, if_pos (by omega)]
          rw [List.append_assoc]
          rw [List.take_left' ht2len, List.drop_left' ht2len]
          rw [List.take_left' (show k.length = 2 by rw [hk_def]; exact pack16le_length c)]
          rw [unpack_pack16le c (by rw [hc_def]; exact calculate_crc_lt t)]
          have hne' : calculate_crc t2 ≠ c := by
            rw [hc_def, ht2_def]
            exact flip_changes_crc t p j (by omega) (by omega) hj
          rw [if_neg hne']
          exact ⟨c, calculate_crc t2, rfl⟩
        · by_cases hp18 : p < 18
          · -- bit flip inside the two stored CRC bytes of the first block
            have hgd : (t ++ k ++ G).getD p 0 = k.getD (p - 16) 0 := by
              rw [List.getD_append _ _ _ p (by omega)]
              rw [List.getD_append_right _ _ _ p (by omega), ht16]
            have hset : (t ++ k ++ G).set p (k.getD (p - 16) 0 ^^^ 1 <<< j)
                = (t ++ k.set (p - 16) (k.getD (p - 16) 0 ^^^ 1 <<< j)) ++ G := by
              rw [List.set_append, if_pos (by omega), List.set_append, if_neg (by omega),
                ht16]
            rw [hgd, hset]
            set k2 := k.set (p - 16) (k.getD (p - 16) 0 ^^^ 1 <<< j) with hk2_def
            have hk2len : k2.length = 2 := by
              rw [hk2_def, List.length_set, hk_def]
              exact pack16le_length c
            have hlen' : ((t ++ k2) ++ G).length = 18 + G.length := by
              simp [List.length_append, ht16, hk2len]
              omega
            rw [remove_crc_eq, if_pos (by omega)]
            rw [List.append_assoc]
            rw [List.take_left' ht16, List.drop_left' ht16]
            rw [List.take_left' hk2len]
            have hne' : calculate_crc t ≠ unpack16le k2 := by
              intro hcontra
            -- the flipped CRC field no longer decodes to the block CRC
              apply unpack_flip_ne c (p - 16) (by omega) (1 <<< j) hv
              rw [← hk_def, ← hk2_def, ← hcontra, hc_def]
            rw [if_neg hne']
            exact ⟨unpack16le k2, calculate_crc t, rfl⟩
          · -- bit flip beyond the first block: recurse into the rest
            have hplt : p - 18 < G.length := by omega
            have hgd : (t ++ k ++ G).getD p 0 = G.getD (p - 18) 0 := by
              rw [List.getD_append_right _ _ _ p (by omega), htk]
            have hset : (t ++ k ++ G).set p (G.getD (p - 18) 0 ^^^ 1 <<< j)
                = (t ++ k) ++ G.set (p - 18) (G.getD (p - 18) 0 ^^^ 1 <<< j) := by
              rw [List.set_append, if_neg (by omega), htk]
            rw [hgd, hset]
            set G2 := G.set (p - 18) (G.getD (p - 18) 0 ^^^ 1 <<< j) with hG2_def
            have hG2len : G2.length = G.length := by
              rw [hG2_def, List.length_set]
            have hlen' : ((t ++ k) ++ G2).length = 18 + G.length := by
              simp [List.length_append, ht16, hk_def, pack16le_length, hG2len]
              omega
            rw [remove_crc_eq, if_pos (by omega)]
            rw [List.append_assoc]
            rw [List.take_left' ht16, List.drop_left' ht16]
            rw [List.take_left' (show k.length = 2 by rw [hk_def]; exact pack16le_length c)]
            rw [unpack_pack16le c (by rw [hc_def]; exact calculate_crc_lt t)]
            rw [if_pos rfl]
            have hdrop : ((t ++ k) ++ G2).drop 18 = G2 := List.drop_left' htk
            rw [← List.append_assoc, hdrop]
            obtain ⟨e, a, herr⟩ := ih (b.drop 16) (by simp [List.length_drop]; omega)
              (p - 18) j (by rw [← hG_def]; exact hplt) hj
            rw [← hG_def] at herr
            rw [hG2_def, herr]
            exact ⟨e, a, rfl⟩
      · -- frame is a single short block followed by its CRC
        have hbl : 1 ≤ b.length := by
          cases b with
          | nil => exact absurd rfl hne
          | cons y ys => simp
        have htake : b.take 16 = b := List.take_of_length_le (by omega)
        have hdrop : b.drop 16 = [] := List.drop_eq_nil_of_le (by omega)
        set c := calculate_crc b with hc_def
        set k := pack16le c with hk_def
        have hF : add_crc_to_frame b = b ++ k := by
          rw [add_crc_eq, if_neg hne, htake, hdrop]
          show b ++ k ++ add_crc_to_frame [] = b ++ k
          rw [show add_crc_to_frame [] = [] from rfl, List.append_nil]
        have hklen : k.length = 2 := by rw [hk_def]; exact pack16le_length c
        have hFlen : (add_crc_to_frame b).length = b.length + 2 := by
          rw [hF]
          simp [List.length_append, hklen]
        rw [hF] at hp ⊢
        have hplen : p < b.length + 2 := by
          have := hFlen
          rw [hF] at this
          omega
        by_cases hpb : p < b.length
        · -- bit flip inside the payload bytes of the final block
          have hgd : (b ++ k).getD p 0 = b.getD p 0 :=
            List.getD_append _ _ _ p hpb
          have hset : (b ++ k).set p (b.getD p 0 ^^^ 1 <<< j)
              = b.set p (b.getD p 0 ^^^ 1 <<< j) ++ k := by
            rw [List.set_append, if_pos hpb]
          rw [hgd, hset]
          set b2 := b.set p (b.getD p 0 ^^^ 1 <<< j) with hb2_def
          have hb2len : b2.length = b.length := by rw [hb2_def, List.length_set]
          have hlen' : (b2 ++ k).length = b.length + 2 := by
            simp [List.length_append, hb2len, hklen]
          rw [remove_crc_eq, if_neg (by omega), if_pos (by omega)]
          rw [hlen']
          have hm : b.length + 2 - 2 = b.length := by omega
          rw [hm]
          rw [List.take_left' hb2len, List.drop_left' hb2len]
          rw [hk_def, unpack_pack16le c (calculate_crc_lt b)]
          have hne' : calculate_crc b2 ≠ c := by
            rw [hc_def, hb2_def]
            exact flip_changes_crc b p j hpb (by omega) hj
          rw [if_neg hne']
          exact ⟨c, calculate_crc b2, rfl⟩
        · -- bit flip inside the two stored CRC bytes of the final block
          have hgd : (b ++ k).getD p 0 = k.getD (p - b.length) 0 :=
            List.getD_append_right _ _ _ p (by omega)
          have hset : (b ++ k).set p (k.getD (p - b.length) 0 ^^^ 1 <<< j)
              = b ++ k.set (p - b.length) (k.getD (p - b.length) 0 ^^^ 1 <<< j) := by
            rw [List.set_append, if_neg (by omega)]
          rw [hgd, hset]
          set k2 := k.set (p - b.length) (k.getD (p - b.length) 0 ^^^ 1 <<< j)
            with hk2_def
          have hk2len : k2.length = 2 := by
            rw [hk2_def, List.length_set, hklen]
          have hlen' : (b ++ k2).length = b.length + 2 := by
            simp [List.length_append, hk2len]
          rw [remove_crc_eq, if_neg (by omega), if_pos (by omega)]
          rw [hlen']
          have hm : b.length + 2 - 2 = b.length := by omega
          rw [hm]
          rw [List.take_left' rfl, List.drop_left' rfl]
          have hne' : calculate_crc b ≠ unpack16le k2 := by
            intro hcontra
            apply unpack_flip_ne c (p - b.length) (by omega) (1 <<< j) hv
            rw [← hk_def, ← hk2_def, ← hcontra, hc_def]
          rw [if_neg hne']
          exact ⟨unpack16le k2, calculate_crc b, rfl⟩

/-- Corruption detection for any single-bit flip, stated via `flipBit`. -/
lemma remove_flipBit (b : List Nat) (kbit : Nat)
    (hk : kbit < 8 * (add_crc_to_frame b).length) :
    ∃ e a, remove_crc_from_frame (flipBit (add_crc_to_frame b) kbit)
      = .error (.crcMismatch e a) := by
  have hp : kbit / 8 < (add_crc_to_frame b).length := by omega
  have hj : kbit % 8 < 8 := Nat.mod_lt _ (by omega)
  exact remove_flip_aux b.length b le_rfl (kbit / 8) (kbit % 8) hp hj

/-! ### Parsing CRC-valid frames -/

/-- Any CRC-protected frame whose payload is at least 11 bytes parses
successfully; the result is read off the payload by the header codecs.
No start-byte check appears anywhere in this path. -/
lemma parse_add (p : List Nat) (hlen : 11 ≤ p.length) :
    parse_response (add_crc_to_frame p) = .ok
      { data_link := ⟨(DNP3DataLinkHeader.unpack p).source,
          (DNP3DataLinkHeader.unpack p).destination,
          (DNP3DataLinkHeader.unpack p).control⟩
        transport := ⟨(DNP3TransportHeader.unpack (p.drop 8)).fin,
          (DNP3TransportHeader.unpack (p.drop 8)).fir,
          (DNP3TransportHeader.unpack (p.drop 8)).sequence⟩
        application := ⟨(DNP3ApplicationHeader.unpack (p.drop 9)).control,
          (DNP3ApplicationHeader.unpack (p.drop 9)).function_code⟩
        objects := parseObjects (p.drop 11) } := by
  have h8 : ¬ p.length < 8 := by omega
  have h9 : ¬ p.length < 9 := by omega
  have h11 : ¬ p.length < 11 := by omega
  unfold parse_response
  rw [remove_add]
  simp only [h8, h9, h11, reduceIte]

/-- Unpacking a well-formed packed object header at the front of a buffer
succeeds and consumes `3 + range length` bytes. -/
lemma unpack_pack_object (h : DNP3ObjectHeader) (rest : List Nat)
    (hwf : h.range_field.length = DNP3ObjectHeader.rangeFieldLength h.qualifier) :
    DNP3ObjectHeader.unpack (h.pack ++ rest) =
      .ok (h, 3 + DNP3ObjectHeader.rangeFieldLength h.qualifier) := by
  obtain ⟨g, v, q, rf⟩ := h
  show DNP3ObjectHeader.unpack (g :: v :: q :: (rf ++ rest)) = _
  have hlen : (g :: v :: q :: (rf ++ rest)).length = 3 + rf.length + rest.length := by
    simp [List.length_append]
    omega
  unfold DNP3ObjectHeader.unpack
  simp only [List.getD_cons_zero, List.getD_cons_succ]
  rw [if_neg (by omega)]
  rw [if_neg (by
    simp only [DNP3ObjectHeader.qualifier] at hwf
    rw [← hwf]
    omega)]
  have hdrop3 : (g :: v :: q :: (rf ++ rest)).drop 3 = rf ++ rest := rfl
  rw [hdrop3]
  simp only [DNP3ObjectHeader.qualifier] at hwf
  rw [show DNP3ObjectHeader.rangeFieldLength q = rf.length from hwf.symm]
  rw [List.take_left' rfl]

/-- The object loop records exactly `min n 1` of the `n` encoded headers. -/
lemma parseObjects_objsBytes (hs : List DNP3ObjectHeader)
    (hwf : ∀ h ∈ hs, h.range_field.length = DNP3ObjectHeader.rangeFieldLength h.qualifier) :
    (parseObjects (objsBytes hs)).length = min hs.length 1 := by
  cases hs with
  | nil => rfl
  | cons h t =>
      have hh := hwf h (List.mem_cons_self h t)
      obtain ⟨g, v, q, rf⟩ := h
      show (parseObjects (g :: v :: q :: (rf ++ objsBytes t))).length = min (t.length + 1) 1
      unfold parseObjects
      rw [show g :: v :: q :: (rf ++ objsBytes t)
          = DNP3ObjectHeader.pack ⟨g, v, q, rf⟩ ++ objsBytes t from rfl]
      rw [unpack_pack_object ⟨g, v, q, rf⟩ (objsBytes t) hh]
      rw [show DNP3ObjectHeader.pack ⟨g, v, q, rf⟩ ++ objsBytes t
          = g :: (v :: q :: (rf ++ objsBytes t)) from rfl]
      simp

/-! ### The trailing extra byte -/

/-- A buffer of full 18-byte blocks plus one extra byte is processed
exactly like the buffer without that byte. -/
lemma remove_append_single_aux : ∀ (n : Nat) (data : List Nat) (x : Nat),
    data.length ≤ n → data.length % 18 = 0 →
    remove_crc_from_frame (data ++ [x]) = remove_crc_from_frame data := by
  intro n
  induction n with
  | zero =>
      intro data x hn hmod
      have : data = [] := List.length_eq_zero.mp (by omega)
      subst this
      rfl
  | succ n ih =>
      intro data x hn hmod
      rcases eq_or_ne data [] with rfl | hne
      · rfl
      have hpos : 1 ≤ data.length := by
        cases data with
        | nil => exact absurd rfl hne
        | cons y ys => simp
      have h18 : 18 ≤ data.length := by omega
      have hlen1 : (data ++ [x]).length = data.length + 1 := by simp
      have htake16 : (data ++ [x]).take 16 = data.take 16 := by
        rw [List.take_append_eq_append_take]
        rw [show 16 - data.length = 0 by omega]
        simp
      have hdrop16 : (data ++ [x]).drop 16 = data.drop 16 ++ [x] := by
        rw [List.drop_append_eq_append_drop]
        rw [show 16 - data.length = 0 by omega]
        simp
      have htake2 : (data.drop 16 ++ [x]).take 2 = (data.drop 16).take 2 := by
        rw [List.take_append_eq_append_take]
        rw [show 2 - (data.drop 16).length = 0 by simp [List.length_drop]; omega]
        simp
      have hdrop18 : (data ++ [x]).drop 18 = data.drop 18 ++ [x] := by
        rw [List.drop_append_eq_append_drop]
        rw [show 18 - data.length = 0 by omega]
        simp
      rw [remove_crc_eq (data ++ [x]), remove_crc_eq data]
      rw [if_pos (show 18 ≤ (data ++ [x]).length by omega)]
      rw [if_pos (show 18 ≤ data.length by omega)]
      rw [htake16, hdrop16, htake2, hdrop18]
      rw [ih (data.drop 18) x (by simp [List.length_drop]; omega)
        (by simp [List.length_drop]; omega)]

/-- The length of a CRC-protected frame over a payload of full 16-byte
blocks is a multiple of 18. -/
lemma add_length_mod_aux : ∀ (n : Nat) (b : List Nat), b.length ≤ n →
    b.length % 16 = 0 → (add_crc_to_frame b).length % 18 = 0 := by
  intro n
  induction n with
  | zero =>
      intro b hn hmod
      have : b = [] := List.length_eq_zero.mp (by omega)
      subst this
      rfl
  | succ n ih =>
      intro b hn hmod
      rcases eq_or_ne b [] with rfl | hne
      · rfl
      have hpos : 1 ≤ b.length := by
        cases b with
        | nil => exact absurd rfl hne
        | cons y ys => simp
      have h16 : 16 ≤ b.length := by omega
      have ht16 : (b.take 16).length = 16 := List.length_take_of_le h16
      rw [add_crc_eq, if_neg hne]
      have := ih (b.drop 16) (by simp [List.length_drop]; omega)
        (by simp [List.length_drop]; omega)
      simp only [List.length_append, ht16, pack16le_length]
      omega

/-! ### Claim theorems -/

/-- C1: on the published CRC-16/DNP check vector, the ASCII bytes of
`"123456789"` (whose published checksum is 0xEA82), `calculate_crc`
returns 0x157D — the bitwise complement of the published value — because
it omits the standard's final ones-complement (`xorout 0xFFFF`).  The
code therefore does not reproduce the standard's published CRC value. -/
theorem C1_crc_known_vector_eval :
    calculate_crc [0x31, 0x32, 0x33, 0x34, 0x35, 0x36, 0x37, 0x38, 0x39] = 0x157D ∧
    (0x157D : Nat) ≠ 0xEA82 ∧ (0x157D : Nat) ^^^ 0xFFFF = 0xEA82 := by
  refine ⟨by decide, by decide, by decide⟩

/-- C2: for every byte sequence of length 0 through 1000,
`remove_crc_from_frame (add_crc_to_frame b)` returns `b` with no error. -/
theorem C2_crc_round_trip (b : List Nat) (hlen : b.length ≤ 1000)
    (hbytes : ∀ x ∈ b, x < 256) :
    remove_crc_from_frame (add_crc_to_frame b) = .ok b :=
  remove_add b

/-- Witness for C2 at the concrete payload `[1, 2, 3]`. -/
theorem C2_crc_round_trip_witness :
    ([1, 2, 3] : List Nat).length ≤ 1000 ∧ (∀ x ∈ ([1, 2, 3] : List Nat), x < 256) ∧
    remove_crc_from_frame (add_crc_to_frame [1, 2, 3]) = .ok [1, 2, 3] :=
  ⟨by decide, by decide, C2_crc_round_trip [1, 2, 3] (by decide) (by decide)⟩

/-- C3: flipping any single bit of a CRC-protected frame
`add_crc_to_frame b` makes `remove_crc_from_frame` — and hence
`parse_response`, which strips CRCs first — fail with a checksum-mismatch
error; in particular no successful parse with a wrong payload is
possible. -/
theorem C3_corruption_detection (b : List Nat) (kbit : Nat)
    (hk : kbit < 8 * (add_crc_to_frame b).length) :
    ∃ e a, remove_crc_from_frame (flipBit (add_crc_to_frame b) kbit)
        = .error (.crcMismatch e a) ∧
      parse_response (flipBit (add_crc_to_frame b) kbit)
        = .error (.crcMismatch e a) := by
  obtain ⟨e, a, h⟩ := remove_flipBit b kbit hk
  refine ⟨e, a, h, ?_⟩
  unfold parse_response
  rw [h]

/-- Witness for C3: flipping bit 0 of the frame over payload `[1]`. -/
theorem C3_corruption_detection_witness :
    0 < 8 * (add_crc_to_frame [1]).length ∧
    ∃ e a, remove_crc_from_frame (flipBit (add_crc_to_frame [1]) 0)
        = .error (.crcMismatch e a) ∧
      parse_response (flipBit (add_crc_to_frame [1]) 0)
        = .error (.crcMismatch e a) :=
  ⟨by decide, C3_corruption_detection [1] 0 (by decide)⟩

/-- C4: the range-field length is determined by `qualifier & 0x70`
according to the documented table, and unpacking a buffer with fewer
bytes than 3 plus the range length of its own qualifier byte fails with
a truncated-header error instead of returning a header. -/
theorem C4_qualifier_table :
    (∀ q : Nat,
      (q &&& 0x70 = 0x00 → DNP3ObjectHeader.rangeFieldLength q = 2) ∧
      (q &&& 0x70 = 0x10 → DNP3ObjectHeader.rangeFieldLength q = 4) ∧
      (q &&& 0x70 = 0x20 → DNP3ObjectHeader.rangeFieldLength q = 8) ∧
      (q &&& 0x70 = 0x30 → DNP3ObjectHeader.rangeFieldLength q = 1) ∧
      (q &&& 0x70 = 0x40 → DNP3ObjectHeader.rangeFieldLength q = 2) ∧
      (q &&& 0x70 = 0x50 → DNP3ObjectHeader.rangeFieldLength q = 4) ∧
      (q &&& 0x70 = 0x60 → DNP3ObjectHeader.rangeFieldLength q = 0)) ∧
    (∀ buf : List Nat,
      buf.length < 3 + DNP3ObjectHeader.rangeFieldLength (buf.getD 2 0) →
      ∃ e, DNP3ObjectHeader.unpack buf = .error e) := by
  constructor
  · intro q
    refine ⟨?_, ?_, ?_, ?_, ?_, ?_, ?_⟩ <;> intro hq <;>
      simp [DNP3ObjectHeader.rangeFieldLength, hq]
  · intro buf hlen
    by_cases h3 : buf.length < 3
    · exact ⟨.insufficientObjectHeader, by simp [DNP3ObjectHeader.unpack, h3]⟩
    · refine ⟨.insufficientRangeField, ?_⟩
      simp only [DNP3ObjectHeader.unpack]
      rw [if_neg h3, if_pos hlen]

/-- Witness for C4: qualifier 0x23 selects an 8-byte range field, and a
5-byte buffer carrying that qualifier fails to unpack. -/
theorem C4_qualifier_table_witness :
    DNP3ObjectHeader.rangeFieldLength 0x23 = 8 ∧
    ∃ e, DNP3ObjectHeader.unpack [1, 2, 0x23, 0, 0] = .error e :=
  ⟨(C4_qualifier_table.1 0x23).2.2.1 (by decide),
   C4_qualifier_table.2 [1, 2, 0x23, 0, 0] (by decide)⟩

/-- The transport round-trip over all FIN/FIR values and all 64 sequence
numbers, checked exhaustively. -/
lemma transport_round : ∀ (f r : Bool), ∀ s < 64,
    DNP3TransportHeader.unpack (DNP3TransportHeader.pack ⟨f, r, s⟩) = ⟨f, r, s⟩ := by
  decide

/-- C5: `unpack (pack h) = h` for each of the four header types — the
data-link header with byte fields below 256 and 16-bit fields below
65536, the transport header with sequence 0–63, the application header,
and the object header whose range field has the length dictated by its
qualifier (every qualifier range-length case), together with the correct
bytes-consumed count. -/
theorem C5_header_round_trip :
    (∀ h : DNP3DataLinkHeader, h.start1 < 256 → h.start2 < 256 → h.length < 256 →
      h.control < 256 → h.destination < 65536 → h.source < 65536 →
      DNP3DataLinkHeader.unpack h.pack = h) ∧
    (∀ h : DNP3TransportHeader, h.sequence < 64 →
      DNP3TransportHeader.unpack h.pack = h) ∧
    (∀ h : DNP3ApplicationHeader, h.control < 256 → h.function_code < 256 →
      DNP3ApplicationHeader.unpack h.pack = h) ∧
    (∀ h : DNP3ObjectHeader, h.group < 256 → h.variation < 256 → h.qualifier < 256 →
      h.range_field.length = DNP3ObjectHeader.rangeFieldLength h.qualifier →
      DNP3ObjectHeader.unpack h.pack
        = .ok (h, 3 + DNP3ObjectHeader.rangeFieldLength h.qualifier)) := by
  refine ⟨?_, ?_, ?_, ?_⟩
  · intro h h1 h2 h3 h4 h5 h6
    obtain ⟨s1, s2, ln, ct, d, s⟩ := h
    have hd : d % 256 + 256 * (d / 256) = d := by omega
    have hs' : s % 256 + 256 * (s / 256) = s := by omega
    simp only [DNP3DataLinkHeader.pack, DNP3DataLinkHeader.unpack,
      List.getD_cons_zero, List.getD_cons_succ, hd, hs']
  · intro h hs
    obtain ⟨f, r, s⟩ := h
    exact transport_round f r s hs
  · intro h _ _
    obtain ⟨c, f⟩ := h
    rfl
  · intro h h1 h2 h3 hrf
    have := unpack_pack_object h [] hrf
    rwa [List.append_nil] at this

/-- Witness for C5 at concrete headers of each type. -/
theorem C5_header_round_trip_witness :
    DNP3DataLinkHeader.unpack (DNP3DataLinkHeader.pack ⟨5, 100, 11, 68, 1000, 513⟩)
      = ⟨5, 100, 11, 68, 1000, 513⟩ ∧
    DNP3TransportHeader.unpack (DNP3TransportHeader.pack ⟨true, false, 63⟩)
      = ⟨true, false, 63⟩ ∧
    DNP3ApplicationHeader.unpack (DNP3ApplicationHeader.pack ⟨0xC0, 0x81⟩)
      = ⟨0xC0, 0x81⟩ ∧
    DNP3ObjectHeader.unpack (DNP3ObjectHeader.pack ⟨30, 1, 0, [0, 9]⟩)
      = .ok (⟨30, 1, 0, [0, 9]⟩, 3 + DNP3ObjectHeader.rangeFieldLength 0) :=
  ⟨C5_header_round_trip.1 ⟨5, 100, 11, 68, 1000, 513⟩ (by decide) (by decide)
      (by decide) (by decide) (by decide) (by decide),
   C5_header_round_trip.2.1 ⟨true, false, 63⟩ (by decide),
   C5_header_round_trip.2.2.1 ⟨0xC0, 0x81⟩ (by decide) (by decide),
   C5_header_round_trip.2.2.2 ⟨30, 1, 0, [0, 9]⟩ (by decide) (by decide) (by decide)
      (by decide)⟩

/-- C6: evaluation of the code at the claim's scenario.
`create_read_request` takes only source, destination and ranges — it has
no application-sequence or transport-sequence parameters (its caller
`DNP3Client._read_points` passes `app_seq`/`transport_seq` keyword
arguments, which this signature rejects); parsing the built frame yields
function code READ (0x01), control 0xC0, transport sequence 0, and one
object entry recording group 30, variation 1, qualifier 0x00 — the
range field `[0, 9]` is not part of the parse result. -/
theorem C6_read_request_eval :
    parse_response (create_read_request 1 10 [(30, 1, 0, 9)]) =
      .ok ⟨⟨1, 10, 0x44⟩, ⟨true, true, 0⟩, ⟨0xC0, 0x01⟩, [⟨30, 1, 0x00⟩]⟩ := by
  decide

/-- C7 counterexample: a CRC-valid frame whose application data encodes
two object headers (group 60 variations 1 and 2, qualifier 0x60, empty
range fields) parses to an object list with a single entry, not two —
the object loop breaks after the first header. -/
theorem C7_object_loop_counterexample :
    parse_response (add_crc_to_frame
        ([0x05, 0x64, 9, 0x44, 10, 0, 1, 0, 0xC0, 0xC0, 0x81] ++
          objsBytes [⟨60, 1, 0x60, []⟩, ⟨60, 2, 0x60, []⟩])) =
      .ok ⟨⟨1, 10, 0x44⟩, ⟨true, true, 0⟩, ⟨0xC0, 0x81⟩, [⟨60, 1, 0x60⟩]⟩ := by
  decide

/-- C7 amended: a well-formed frame always parses without error, and the
object list has `min n 1` entries for `n` encoded object headers: zero
headers parse to an empty list (not an error), and otherwise exactly the
first header is recorded. -/
theorem C7_objects_min_one (dlh : DNP3DataLinkHeader) (th : DNP3TransportHeader)
    (ah : DNP3ApplicationHeader) (hs : List DNP3ObjectHeader)
    (hwf : ∀ h ∈ hs, h.range_field.length = DNP3ObjectHeader.rangeFieldLength h.qualifier) :
    ∃ r, parse_response (add_crc_to_frame
        (dlh.pack ++ th.pack ++ ah.pack ++ objsBytes hs)) = .ok r ∧
      r.objects.length = min hs.length 1 := by
  have hpre : ((dlh.pack ++ th.pack ++ ah.pack).length) = 11 := by
    simp [DNP3DataLinkHeader.pack, DNP3TransportHeader.pack,
      DNP3ApplicationHeader.pack, List.length_append]
  have hlen : 11 ≤ (dlh.pack ++ th.pack ++ ah.pack ++ objsBytes hs).length := by
    simp only [List.length_append] at hpre ⊢
    omega
  refine ⟨_, parse_add _ hlen, ?_⟩
  have hdrop : (dlh.pack ++ th.pack ++ ah.pack ++ objsBytes hs).drop 11
      = objsBytes hs := by
    rw [show dlh.pack ++ th.pack ++ ah.pack ++ objsBytes hs
        = (dlh.pack ++ th.pack ++ ah.pack) ++ objsBytes hs from rfl]
    exact List.drop_left' hpre
  simp only [hdrop]
  exact parseObjects_objsBytes hs hwf

/-- Witness for C7's amended statement: default headers and zero object
headers give a successful parse with an empty object list. -/
theorem C7_objects_min_one_witness :
    (∀ h ∈ ([] : List DNP3ObjectHeader),
      h.range_field.length = DNP3ObjectHeader.rangeFieldLength h.qualifier) ∧
    ∃ r, parse_response (add_crc_to_frame
        (DNP3DataLinkHeader.pack ⟨5, 100, 3, 68, 10, 1⟩ ++
          DNP3TransportHeader.pack ⟨true, true, 0⟩ ++
          DNP3ApplicationHeader.pack ⟨0xC0, 0x81⟩ ++ objsBytes [])) = .ok r ∧
      r.objects.length = min ([] : List DNP3ObjectHeader).length 1 :=
  ⟨by simp,
   C7_objects_min_one ⟨5, 100, 3, 68, 10, 1⟩ ⟨true, true, 0⟩ ⟨0xC0, 0x81⟩ [] (by simp)⟩

/-- C8: evaluation of the code at the claim's scenario.  A CRC-valid
response frame carrying application control byte 0xC6 (sequence 6 in the
low nibble) parses successfully, but `parse_response` exposes no
`"sequence"` key in its application dict (only `"control"` and
`"function_code"`), so the client2s lookup falls back to its default;
the client2s guard checks a `"valid"` key the parser never emits, so
`_read_points` takes the failure branch and returns `None` — no
`SequenceMismatch` error exists anywhere on this path, and the warning
branch that does compare sequences still returns placeholder points. -/
theorem C8_sequence_mismatch_eval :
    parse_response (add_crc_to_frame
        [0x05, 0x64, 3, 0x44, 1, 0, 10, 0, 0xC0, 0xC6, 0x81]) =
      .ok ⟨⟨10, 1, 0x44⟩, ⟨true, true, 0⟩, ⟨0xC6, 0x81⟩, []⟩ ∧
    readPointsGuard (parse_response (add_crc_to_frame
        [0x05, 0x64, 3, 0x44, 1, 0, 10, 0, 0xC0, 0xC6, 0x81])) = false ∧
    readPointsOutcome (parse_response (add_crc_to_frame
        [0x05, 0x64, 3, 0x44, 1, 0, 10, 0, 0xC0, 0xC6, 0x81])) 0 10 = none ∧
    readPointsResponseSeq ⟨⟨10, 1, 0x44⟩, ⟨true, true, 0⟩, ⟨0xC6, 0x81⟩, []⟩ = -1 ∧
    ("valid" ∈ parseResponseSuccessKeys) = False ∧
    ("sequence" ∈ applicationKeys) = False := by
  refine ⟨by decide, by decide, by decide, by decide, by simp [parseResponseSuccessKeys],
    by simp [applicationKeys]⟩

/-- C9 counterexample: a CRC-valid buffer whose first two bytes are 0x00
0x00 — not the fixed start bytes 0x05 0x64 — is parsed successfully by
`parse_response`; the start bytes are returned, never checked. -/
theorem C9_start_bytes_counterexample :
    (add_crc_to_frame [0, 0, 0, 0, 0, 0, 0, 0, 0, 0, 0]).take 2 = [0, 0] ∧
    ([0, 0] : List Nat) ≠ [0x05, 0x64] ∧
    parse_response (add_crc_to_frame [0, 0, 0, 0, 0, 0, 0, 0, 0, 0, 0]) =
      .ok ⟨⟨0, 0, 0⟩, ⟨false, false, 0⟩, ⟨0, 0⟩, []⟩ := by
  refine ⟨by decide, by decide, by decide⟩

/-- C9 amended: `parse_response` performs no start-byte validation: every
CRC-valid frame whose stripped payload is at least 11 bytes parses
successfully even when the first two bytes differ from 0x05 0x64. -/
theorem C9_no_start_byte_validation (p : List Nat) (hlen : 11 ≤ p.length)
    (hstart : p.take 2 ≠ [0x05, 0x64]) :
    ∃ r, parse_response (add_crc_to_frame p) = .ok r :=
  ⟨_, parse_add p hlen⟩

/-- Witness for C9's amended statement at an all-zero 11-byte payload. -/
theorem C9_no_start_byte_validation_witness :
    11 ≤ ([0, 0, 0, 0, 0, 0, 0, 0, 0, 0, 0] : List Nat).length ∧
    ([0, 0, 0, 0, 0, 0, 0, 0, 0, 0, 0] : List Nat).take 2 ≠ [0x05, 0x64] ∧
    ∃ r, parse_response (add_crc_to_frame [0, 0, 0, 0, 0, 0, 0, 0, 0, 0, 0]) = .ok r :=
  ⟨by decide, by decide,
   C9_no_start_byte_validation [0, 0, 0, 0, 0, 0, 0, 0, 0, 0, 0] (by decide) (by decide)⟩

/-- C10: an input whose length leaves a remainder of exactly one byte
after the leading full 18-byte blocks is processed as if the trailing
byte were absent — no checksum verification or error is reported for it;
in particular appending one byte to a CRC-protected frame over a payload
of full 16-byte blocks still strips to the original payload with no
error. -/
theorem C10_trailing_byte_ignored :
    (∀ (data : List Nat) (x : Nat), data.length % 18 = 0 →
      remove_crc_from_frame (data ++ [x]) = remove_crc_from_frame data) ∧
    (∀ (b : List Nat) (x : Nat), b.length % 16 = 0 →
      remove_crc_from_frame (add_crc_to_frame b ++ [x]) = .ok b) := by
  constructor
  · intro data x hmod
    exact remove_append_single_aux data.length data x le_rfl hmod
  · intro b x hmod
    rw [remove_append_single_aux (add_crc_to_frame b).length (add_crc_to_frame b) x
      le_rfl (add_length_mod_aux b.length b le_rfl hmod)]
    exact remove_add b

/-- Witness for C10: a 16-byte payload's frame plus a stray trailing byte
still strips to the payload, and the empty frame ignores a lone byte. -/
theorem C10_trailing_byte_ignored_witness :
    remove_crc_from_frame (add_crc_to_frame (List.replicate 16 7) ++ [99])
      = .ok (List.replicate 16 7) ∧
    remove_crc_from_frame (([] : List Nat) ++ [5]) = remove_crc_from_frame [] :=
  ⟨C10_trailing_byte_ignored.2 (List.replicate 16 7) 99 (by decide),
   C10_trailing_byte_ignored.1 [] 5 (by decide)⟩

end DNP3
